import Mathlib

/-
Verification development for the BadgerDB B+Tree index (btree.cpp / btree.h).

The node capacities INTARRAYLEAFSIZE and INTARRAYNONLEAFSIZE are derived in the
source from the page size of the external paged-file layer; they appear here as
parameters L and M.  C arrays appear as total functions from Nat; an index
outside the declared bound is therefore still defined in the model, and the
loops that may touch such an index additionally log every index they access so
that bounds claims can be stated.  Loops are translated one iteration per fuel
step; the fuel passed at each top-level entry point is the bound implied by the
loop condition, so the cutoff branch is unreachable there.
-/

namespace Btree

/-- RecordId from types: a (page number, slot number) pair; page_number 0 is the
empty-slot sentinel. -/
structure RecordId where
  page_number : Nat
  slot_number : Nat
deriving DecidableEq

/-- Scan comparison operators passed to startScan. -/
inductive Operator
  | LT
  | LTE
  | GTE
  | GT
deriving DecidableEq

/-- Leaf node layout (LeafNodeInt): level is -1 for leaves; keyArray and
ridArray are the slot arrays; rightSibPageNo links to the next leaf. -/
structure LeafNodeInt where
  level : Int
  keyArray : Nat → Int
  ridArray : Nat → RecordId
  rightSibPageNo : Nat

/-- Internal node layout (NonLeafNodeInt). -/
structure NonLeafNodeInt where
  level : Int
  keyArray : Nat → Int
  pageNoArray : Nat → Nat

/-- A page of the index file, viewed as one of the two node layouts. -/
inductive BTPage
  | leaf (node : LeafNodeInt)
  | nonLeaf (node : NonLeafNodeInt)

/-- The index file: page number to page content. -/
abbrev Store := Nat → BTPage

/-- Level field read at offset 0, as the isLeaf cast does. -/
def pageLevel : BTPage → Int
  | .leaf node => node.level
  | .nonLeaf node => node.level

/-- BTreeIndex::isLeaf: the level field equals -1. -/
def isLeaf (page : BTPage) : Bool := pageLevel page == -1

/-- Content obtained by casting an arbitrary leaf read out of a page used with
a mismatched layout; the source reads unspecified bytes in that case. -/
def junkLeaf : LeafNodeInt :=
  { level := -1, keyArray := fun _ => 0, ridArray := fun _ => ⟨0, 0⟩,
    rightSibPageNo := 0 }

/-- Content obtained by casting a page used with a mismatched layout to the
internal layout. -/
def junkNonLeaf : NonLeafNodeInt :=
  { level := 0, keyArray := fun _ => 0, pageNoArray := fun _ => 0 }

/-- Cast of a page pointer to LeafNodeInt, as the source does after isLeaf. -/
def asLeaf : BTPage → LeafNodeInt
  | .leaf node => node
  | .nonLeaf _ => junkLeaf

/-- Cast of a page pointer to NonLeafNodeInt. -/
def asNonLeaf : BTPage → NonLeafNodeInt
  | .leaf _ => junkNonLeaf
  | .nonLeaf node => node

/-- Pointwise array update, the effect of `a[n] = v` on a C array viewed as a
total function. -/
def updFun {α : Type} (f : Nat → α) (n : Nat) (v : α) : Nat → α :=
  fun m => if m = n then v else f m

/-- Loop of findNonLeafIndex:
`while(pageNoArray[idx+1] != 0 && key > keyArray[idx] && idx < M) idx++;`
The returned list logs the pageNoArray index accessed by each evaluation of
the guard (the access happens before the idx < M comparison). -/
def findNonLeafIndexGo (M : Nat) (node : NonLeafNodeInt) (key : Int) :
    Nat → Nat → Nat × List Nat
  | 0, idx => (idx, [])
  | fuel+1, idx =>
      if node.pageNoArray (idx+1) ≠ 0 ∧ key > node.keyArray idx ∧ idx < M then
        ((findNonLeafIndexGo M node key fuel (idx+1)).1,
         (idx+1) :: (findNonLeafIndexGo M node key fuel (idx+1)).2)
      else (idx, [idx+1])

/-- BTreeIndex::findNonLeafIndex, result value. -/
def findNonLeafIndex (M : Nat) (node : NonLeafNodeInt) (key : Int) : Nat :=
  (findNonLeafIndexGo M node key (M+1) 0).1

/-- The pageNoArray indices accessed by findNonLeafIndex. -/
def findNonLeafIndexAccesses (M : Nat) (node : NonLeafNodeInt) (key : Int) :
    List Nat :=
  (findNonLeafIndexGo M node key (M+1) 0).2

/-- Full-node detection loop of insertToLeaf:
`while(ridArray[next].page_number != 0 && next < L) next++;`
The list logs the ridArray index accessed by each guard evaluation. -/
def insertToLeafFullCheckGo (L : Nat) (node : LeafNodeInt) :
    Nat → Nat → Nat × List Nat
  | 0, next => (next, [])
  | fuel+1, next =>
      if (node.ridArray next).page_number ≠ 0 ∧ next < L then
        ((insertToLeafFullCheckGo L node fuel (next+1)).1,
         next :: (insertToLeafFullCheckGo L node fuel (next+1)).2)
      else (next, [next])

/-- Full-node detection of insertToLeaf starting at next = 0. -/
def insertToLeafFullCheck (L : Nat) (node : LeafNodeInt) : Nat × List Nat :=
  insertToLeafFullCheckGo L node (L+1) 0

/-- Merge loop of splitLeafNode building tempKey/tempRid: two counters i and j,
the new pair written once at its place (and then i runs one ahead of j), the
break writing the pair at j when j reaches L or an empty slot is seen. -/
def splitLeafMergeGo (L : Nat) (node : LeafNodeInt) (key : Int) (rid : RecordId) :
    Nat → Nat → Nat → (Nat → Int) → (Nat → RecordId) →
    (Nat → Int) × (Nat → RecordId)
  | 0, _, _, tK, tR => (tK, tR)
  | fuel+1, i, j, tK, tR =>
      if L < i then (tK, tR)
      else if j = L ∨ (node.ridArray j).page_number = 0 then
        (updFun tK j key, updFun tR j rid)
      else if j = i ∧ key < node.keyArray i then
        splitLeafMergeGo L node key rid fuel (i+2) (j+1)
          (updFun (updFun tK i key) (i+1) (node.keyArray j))
          (updFun (updFun tR i rid) (i+1) (node.ridArray j))
      else
        splitLeafMergeGo L node key rid fuel (i+1) (j+1)
          (updFun tK i (node.keyArray j)) (updFun tR i (node.ridArray j))

/-- The temporary arrays of splitLeafNode (locals tempKey, tempRid; stack
contents before the loop modelled as zero). -/
def splitLeafMerge (L : Nat) (node : LeafNodeInt) (key : Int) (rid : RecordId) :
    (Nat → Int) × (Nat → RecordId) :=
  splitLeafMergeGo L node key rid (L+1) 0 0 (fun _ => 0) (fun _ => ⟨0, 0⟩)

/-- Distribution loop of splitLeafNode:
`for(i = L/2; i <= L; i++) { if (i < L) node->ridArray[i].page_number = 0;
newNode->ridArray[i-L/2] = tempRid[i]; newNode->keyArray[i-L/2] = tempKey[i]; }`
Accumulators: the old node's ridArray and the new node's arrays. -/
def splitLeafDistGo (L : Nat) (tK : Nat → Int) (tR : Nat → RecordId) :
    Nat → Nat → (Nat → RecordId) → (Nat → Int) → (Nat → RecordId) →
    (Nat → RecordId) × (Nat → Int) × (Nat → RecordId)
  | 0, _, oldR, nK, nR => (oldR, nK, nR)
  | fuel+1, i, oldR, nK, nR =>
      if L < i then (oldR, nK, nR)
      else
        splitLeafDistGo L tK tR fuel (i+1)
          (if i < L then updFun oldR i ⟨0, (oldR i).slot_number⟩ else oldR)
          (updFun nK (i - L/2) (tK i)) (updFun nR (i - L/2) (tR i))

/-- Result of splitLeafNode: updated original leaf, the new leaf, and the
returned middle key. -/
structure SplitLeafResult where
  oldNode : LeafNodeInt
  newNode : LeafNodeInt
  midKey : Int

/-- BTreeIndex::splitLeafNode on a node pinned at some page, the new page
allocated at newPid (allocLeaf zero-fills it, sets level -1, rightSib 0). -/
def splitLeafNode (L : Nat) (node : LeafNodeInt) (key : Int) (rid : RecordId)
    (newPid : Nat) : SplitLeafResult :=
  let t := splitLeafMerge L node key rid
  let d := splitLeafDistGo L t.1 t.2 (L+1) (L/2) node.ridArray
    (fun _ => 0) (fun _ => ⟨0, 0⟩)
  { oldNode := { node with ridArray := d.1, rightSibPageNo := newPid },
    newNode := { level := -1, keyArray := d.2.1, ridArray := d.2.2,
                 rightSibPageNo := node.rightSibPageNo },
    midKey := t.1 (L/2) }

/-- Sorted-insert position per the spec's description of the merge: the least
p < L with key < keyArray[p], or L when there is none.  Equal keys keep the
new entry to the right. -/
def leafInsertPosGo (key : Int) (node : LeafNodeInt) : Nat → Nat → Nat
  | 0, p => p
  | fuel+1, p =>
      if key < node.keyArray p then p else leafInsertPosGo key node fuel (p+1)

/-- Sorted-insert position of key in the keys of a full leaf. -/
def leafInsertPos (L : Nat) (key : Int) (node : LeafNodeInt) : Nat :=
  leafInsertPosGo key node L 0

/-- Key at index m of the L+1 merged entries described by the spec: the node's
keys with key inserted at its sorted position. -/
def mergedKeyAt (L : Nat) (node : LeafNodeInt) (key : Int) (m : Nat) : Int :=
  if m < leafInsertPos L key node then node.keyArray m
  else if m = leafInsertPos L key node then key
  else node.keyArray (m-1)

/-- RecordId at index m of the merged entries described by the spec. -/
def mergedRidAt (L : Nat) (node : LeafNodeInt) (key : Int) (rid : RecordId)
    (m : Nat) : RecordId :=
  if m < leafInsertPos L key node then node.ridArray m
  else if m = leafInsertPos L key node then rid
  else node.ridArray (m-1)

/-- Merge loop of splitNonLeafNode building tempKey and tempPid.  In the break
branch the source writes `tempPid[j+1] = pid` - the page number of the node
being split, not sonPid. -/
def splitNonLeafTempGo (M : Nat) (node : NonLeafNodeInt) (key : Int)
    (sonPid pid : Nat) :
    Nat → Nat → Nat → (Nat → Int) → (Nat → Nat) → (Nat → Int) × (Nat → Nat)
  | 0, _, _, tK, tP => (tK, tP)
  | fuel+1, i, j, tK, tP =>
      if M < i then (tK, tP)
      else if j = M ∨ node.pageNoArray (j+1) = 0 then
        (updFun tK j key, updFun tP (j+1) pid)
      else if j = i ∧ key < node.keyArray i then
        splitNonLeafTempGo M node key sonPid pid fuel (i+2) (j+1)
          (updFun (updFun tK i key) (i+1) (node.keyArray j))
          (updFun (updFun tP (i+1) sonPid) (i+2) (node.pageNoArray (j+1)))
      else
        splitNonLeafTempGo M node key sonPid pid fuel (i+1) (j+1)
          (updFun tK i (node.keyArray j)) (updFun tP (i+1) (node.pageNoArray (j+1)))

/-- The temporary arrays of splitNonLeafNode; before the loop the source sets
`tempPid[0] = node->pageNoArray[0]`. -/
def splitNonLeafTemp (M : Nat) (node : NonLeafNodeInt) (key : Int)
    (sonPid pid : Nat) : (Nat → Int) × (Nat → Nat) :=
  splitNonLeafTempGo M node key sonPid pid (M+1) 0 0 (fun _ => 0)
    (updFun (fun _ => 0) 0 (node.pageNoArray 0))

/-- Errors raised by the index operations; fuelExhausted is not a source error,
it marks the model's cutoff of an unbounded descent. -/
inductive BTreeError
  | badIndexInfo
  | badOpcodes
  | badScanrange
  | noSuchKeyFound
  | scanNotInitialized
  | indexScanCompleted
  | fuelExhausted
deriving DecidableEq

/-- Calls made to the buffer manager: readPage, unPinPage with its dirty flag,
and a page-content write (no scan routine performs one). -/
inductive BufEvent
  | read (pid : Nat)
  | unpin (pid : Nat) (dirty : Bool)
  | write (pid : Nat)
deriving DecidableEq

/-- An event that cannot modify the stored tree: a read, or an unpin with
dirty = false. -/
def cleanEvent : BufEvent → Bool
  | .read _ => true
  | .unpin _ dirty => !dirty
  | .write _ => false

/-- Scan-related members of BTreeIndex. -/
structure ScanState where
  scanExecuting : Bool
  nextEntry : Int
  currentPageNum : Nat
  lowValInt : Int
  highValInt : Int
  lowOp : Operator
  highOp : Operator
deriving DecidableEq

/-- BTreeIndex::endScan: raises when no scan is active, otherwise resets the
scan members.  The source performs no buffer-manager call here, hence the
empty event list. -/
def endScan (st : ScanState) : Except BTreeError ScanState × List BufEvent :=
  if st.scanExecuting = false then (.error .scanNotInitialized, [])
  else
    (.ok { st with scanExecuting := false, nextEntry := -1, currentPageNum := 0 },
     [])

/-- BTreeIndex::recursiveScanPageId: descend from pid following
findNonLeafIndex on lowValInt until a leaf is reached; every page is read and
unpinned with dirty = false.  Returns the leaf page number, or none when fuel
runs out (the source recursion would not terminate on such a store). -/
def recursiveScanPageId (M : Nat) (store : Store) (lowValInt : Int) :
    Nat → Nat → Option Nat × List BufEvent
  | 0, _ => (none, [])
  | fuel+1, pid =>
      if isLeaf (store pid) then (some pid, [.read pid, .unpin pid false])
      else
        ((recursiveScanPageId M store lowValInt fuel
            ((asNonLeaf (store pid)).pageNoArray
              (findNonLeafIndex M (asNonLeaf (store pid)) lowValInt))).1,
         .read pid :: .unpin pid false ::
           (recursiveScanPageId M store lowValInt fuel
            ((asNonLeaf (store pid)).pageNoArray
              (findNonLeafIndex M (asNonLeaf (store pid)) lowValInt))).2)

/-- Outcome of the positioning loop of startScan over the reached leaf. -/
inductive FindResult
  | found (i : Nat)
  | noSuchKey
  | notFound
deriving DecidableEq

/-- Positioning loop of startScan: for i in [0, L), stop at an empty slot,
report the first slot whose key satisfies the low bound, raise NoSuchKeyFound
when a key that fails the low bound already exceeds the high bound. -/
def startScanFindGo (leaf : LeafNodeInt) (lowValInt highValInt : Int)
    (lowOp highOp : Operator) : Nat → Nat → FindResult
  | 0, _ => .notFound
  | fuel+1, i =>
      if (leaf.ridArray i).page_number = 0 then .notFound
      else if lowOp = .GT ∧ leaf.keyArray i > lowValInt then .found i
      else if lowOp = .GTE ∧ leaf.keyArray i ≥ lowValInt then .found i
      else if highOp = .LT ∧ leaf.keyArray i > highValInt then .noSuchKey
      else if highOp = .LTE ∧ leaf.keyArray i ≥ highValInt then .noSuchKey
      else startScanFindGo leaf lowValInt highValInt lowOp highOp fuel (i+1)

/-- Tail of startScan after validation: descend to a leaf, pin it, position
nextEntry; on failure unpin with dirty = false and raise NoSuchKeyFound; when
nothing qualified in the leaf, move to the right sibling if one exists. -/
def startScanLocate (M L : Nat) (store : Store) (rootPageNum fuel : Nat)
    (stBase : ScanState) : Except BTreeError ScanState × List BufEvent :=
  match (recursiveScanPageId M store stBase.lowValInt fuel rootPageNum).1 with
  | none =>
      (.error .fuelExhausted,
       (recursiveScanPageId M store stBase.lowValInt fuel rootPageNum).2)
  | some leafPid =>
      match startScanFindGo (asLeaf (store leafPid)) stBase.lowValInt
          stBase.highValInt stBase.lowOp stBase.highOp L 0 with
      | .found i =>
          (.ok { stBase with
                 scanExecuting := true, nextEntry := (i : Int),
                 currentPageNum := leafPid },
           (recursiveScanPageId M store stBase.lowValInt fuel rootPageNum).2 ++
             [.read leafPid])
      | .noSuchKey =>
          (.error .noSuchKeyFound,
           (recursiveScanPageId M store stBase.lowValInt fuel rootPageNum).2 ++
             [.read leafPid, .unpin leafPid false])
      | .notFound =>
          if (asLeaf (store leafPid)).rightSibPageNo = 0 then
            (.error .noSuchKeyFound,
             (recursiveScanPageId M store stBase.lowValInt fuel rootPageNum).2 ++
               [.read leafPid, .unpin leafPid false])
          else
            (.ok { stBase with
                   scanExecuting := true, nextEntry := 0,
                   currentPageNum := (asLeaf (store leafPid)).rightSibPageNo },
             (recursiveScanPageId M store stBase.lowValInt fuel rootPageNum).2 ++
               [.read leafPid, .unpin leafPid false,
                .read (asLeaf (store leafPid)).rightSibPageNo])

/-- BTreeIndex::startScan: record the bounds, validate the operators and the
range, end a running scan (which releases nothing, see endScan), then locate
the first qualifying entry. -/
def startScan (M L : Nat) (store : Store) (rootPageNum fuel : Nat)
    (st : ScanState) (lowValParm highValParm : Int)
    (lowOpParm highOpParm : Operator) :
    Except BTreeError ScanState × List BufEvent :=
  if lowOpParm ≠ .GT ∧ lowOpParm ≠ .GTE then (.error .badOpcodes, [])
  else if highOpParm ≠ .LT ∧ highOpParm ≠ .LTE then (.error .badOpcodes, [])
  else if lowValParm > highValParm then (.error .badScanrange, [])
  else
    startScanLocate M L store rootPageNum fuel
      (if st.scanExecuting then
        { st with
          lowValInt := lowValParm, highValInt := highValParm,
          lowOp := lowOpParm, highOp := highOpParm,
          scanExecuting := false, nextEntry := -1, currentPageNum := 0 }
       else
        { st with
          lowValInt := lowValParm, highValInt := highValParm,
          lowOp := lowOpParm, highOp := highOpParm })

/-- Result of one scanNext call: the value assigned to the out parameter (the
source assigns it before checking the bound), the outcome, and the buffer
calls made. -/
structure ScanNextResult where
  outRidWritten : Option RecordId
  result : Except BTreeError ScanState
  events : List BufEvent

/-- BTreeIndex::scanNext: read slot nextEntry of the pinned leaf into the out
parameter, then raise IndexScanCompleted when its key violates the high bound;
otherwise advance, moving to the right sibling when the leaf is exhausted.
The pinned page content is read through the store at currentPageNum, which
equals the cached currentPageData since scans never write. -/
def scanNext (L : Nat) (store : Store) (st : ScanState) : ScanNextResult :=
  if st.scanExecuting = false then
    { outRidWritten := none, result := .error .scanNotInitialized, events := [] }
  else
    let node := asLeaf (store st.currentPageNum)
    let outRid := node.ridArray st.nextEntry.toNat
    let val := node.keyArray st.nextEntry.toNat
    if val > st.highValInt ∨ (val = st.highValInt ∧ st.highOp = .LT) then
      { outRidWritten := some outRid, result := .error .indexScanCompleted,
        events := [.unpin st.currentPageNum false] }
    else
      if st.nextEntry + 1 = (L : Int) ∨
          (node.ridArray (st.nextEntry + 1).toNat).page_number = 0 then
        if node.rightSibPageNo = 0 then
          { outRidWritten := some outRid, result := .error .indexScanCompleted,
            events := [.unpin st.currentPageNum false] }
        else
          { outRidWritten := some outRid,
            result := .ok { st with
                            nextEntry := 0,
                            currentPageNum := node.rightSibPageNo },
            events := [.unpin st.currentPageNum false,
                       .read node.rightSibPageNo] }
      else
        { outRidWritten := some outRid,
          result := .ok { st with nextEntry := st.nextEntry + 1 }, events := [] }

/-- Does a key satisfy the lower scan bound. -/
def satisfiesLow (op : Operator) (lowValInt k : Int) : Bool :=
  match op with
  | .GT => decide (lowValInt < k)
  | .GTE => decide (lowValInt ≤ k)
  | _ => false

/-- Does a key satisfy the upper scan bound. -/
def satisfiesHigh (op : Operator) (highValInt k : Int) : Bool :=
  match op with
  | .LT => decide (k < highValInt)
  | .LTE => decide (k ≤ highValInt)
  | _ => false

/-- Slots of a leaf are occupied in a left-compacted prefix: an empty slot is
never followed by an occupied one.  This holds for every leaf the insertion
path produces (there is no deletion). -/
def leftCompacted (L : Nat) (leaf : LeafNodeInt) : Prop :=
  ∀ s, s < L → ∀ t, t ≤ s → (leaf.ridArray t).page_number = 0 →
    (leaf.ridArray s).page_number = 0

/-- IndexMetaInfo: the metadata page of the index file. -/
structure IndexMetaInfo where
  relationName : String
  attrByteOffset : Int
  attrType : Nat
  rootPageNo : Nat
deriving DecidableEq

/-- Open-existing path of the BTreeIndex constructor: the header page is read,
the caller's relation name is strncpy-ed over the persisted one (20 bytes with
a forced terminator at 19), the caller's attrByteOffset and attrType are
assigned over the persisted fields, rootPageNum is taken from the page, and
the page is unpinned with dirty = false.  No field is compared and nothing is
raised.  Returns the in-memory metadata view and rootPageNum. -/
def btreeOpenExisting (persisted : IndexMetaInfo) (relationName : String)
    (attrByteOffset : Int) (attrType : Nat) :
    Except BTreeError (IndexMetaInfo × Nat) :=
  .ok ({ relationName := relationName.take 19,
         attrByteOffset := attrByteOffset,
         attrType := attrType,
         rootPageNo := persisted.rootPageNo },
       persisted.rootPageNo)

/-- In-memory members of BTreeIndex touched by the destructor. -/
structure BTreeIndexState where
  scanExecuting : Bool
  fileOpen : Bool
  nextEntry : Int
  headerPageNum : Nat
  rootPageNum : Nat
  currentPageNum : Nat
deriving DecidableEq

/-- Errors the external buffer manager can raise from flushFile; it raises
PagePinned when a page of the file is still pinned, as it is during an
active scan. -/
inductive FlushError
  | pagePinned
  | badBuffer
deriving DecidableEq

/-- BTreeIndex::~BTreeIndex: clear scanExecuting, call flushFile, release the
file and zero the members.  The body contains no try/catch, so a failure of
the flush propagates; the flush outcome is a parameter since the buffer
manager is external. -/
def btreeDestructor (_st : BTreeIndexState)
    (flushOutcome : Except FlushError Unit) :
    Except FlushError BTreeIndexState :=
  match flushOutcome with
  | .error e => .error e
  | .ok _ =>
      .ok { scanExecuting := false, fileOpen := false, nextEntry := -1,
            headerPageNum := 0, rootPageNum := 0, currentPageNum := 0 }

/-- Root-split handling of insertEntry: when the recursion reports a split of
the root, allocate a fresh internal node (zero-filled), set its level to 1
when the old root was a leaf (level == -1) and to 0 otherwise, and install
midKey and the two children. -/
def insertEntryNewRoot (rootLevel : Int) (midKey : Int) (pid newPid : Nat) :
    NonLeafNodeInt :=
  if rootLevel = -1 then
    { level := 1, keyArray := updFun (fun _ => 0) 0 midKey,
      pageNoArray := updFun (updFun (fun _ => 0) 0 pid) 1 newPid }
  else
    { level := 0, keyArray := updFun (fun _ => 0) 0 midKey,
      pageNoArray := updFun (updFun (fun _ => 0) 0 pid) 1 newPid }

/-- BTreeIndex::updateRootPageNo: write rootPageNum into the header page. -/
def updateRootPageNo (meta : IndexMetaInfo) (rootPageNum : Nat) :
    IndexMetaInfo :=
  { meta with rootPageNo := rootPageNum }

/-
Concrete fixtures used by the closed theorems below.
-/

/-- A full leaf with keys 10, 20, 30, 40 and occupied rids. -/
def splitLeafA : LeafNodeInt :=
  { level := -1,
    keyArray := fun i =>
      if i = 0 then 10 else if i = 1 then 20 else
      if i = 2 then 30 else if i = 3 then 40 else 0,
    ridArray := fun i => if i < 4 then ⟨i+1, 0⟩ else ⟨0, 0⟩,
    rightSibPageNo := 6 }

/-- A full internal node (capacity 3) with keys 10, 20, 30 and children
1, 2, 3, 4. -/
def splitNonLeafA : NonLeafNodeInt :=
  { level := 1,
    keyArray := fun i =>
      if i = 0 then 10 else if i = 1 then 20 else if i = 2 then 30 else 0,
    pageNoArray := fun i => if i ≤ 3 then i+1 else 0 }

/-- A leaf holding keys 3 and 10 with no right sibling. -/
def scanLeafA : LeafNodeInt :=
  { level := -1,
    keyArray := fun i => if i = 0 then 3 else if i = 1 then 10 else 0,
    ridArray := fun i =>
      if i = 0 then ⟨7, 1⟩ else if i = 1 then ⟨7, 2⟩ else ⟨0, 0⟩,
    rightSibPageNo := 0 }

/-- A store whose every page is scanLeafA; the tree is the single leaf at
page 2. -/
def scanStoreA : Store := fun _ => .leaf scanLeafA

/-- A leaf holding only the key 3, with no right sibling. -/
def scanLeafB : LeafNodeInt :=
  { level := -1,
    keyArray := fun i => if i = 0 then 3 else 0,
    ridArray := fun i => if i = 0 then ⟨5, 1⟩ else ⟨0, 0⟩,
    rightSibPageNo := 0 }

/-- A store whose every page is scanLeafB. -/
def scanStoreB : Store := fun _ => .leaf scanLeafB

/-- Scan state before any scan has run. -/
def scanStateInit : ScanState :=
  { scanExecuting := false, nextEntry := -1, currentPageNum := 0,
    lowValInt := 0, highValInt := 0, lowOp := .GT, highOp := .LT }

/-- The scan state produced by startScan(5, GTE, 7, LTE) over scanStoreA:
positioned on slot 1 (key 10) of the leaf pinned at page 2. -/
def scanStateA : ScanState :=
  { scanExecuting := true, nextEntry := 1, currentPageNum := 2,
    lowValInt := 5, highValInt := 7, lowOp := .GTE, highOp := .LTE }

/-
Theorems.
-/

/-- C1: scanNext assigns the out parameter before checking the upper bound.
Continuing the scan positioned by startScan(5, GTE, 7, LTE) over the single
leaf with keys 3 and 10, the call writes the RecordId of key 10 into the out
parameter although key 10 violates the upper bound, and then raises
IndexScanCompleted; the claim that a RecordId is written iff the entry's key
satisfies both bounds is therefore violated by the source. -/
theorem claim1_scanNext_writes_out_of_range_rid :
    (scanNext 4 scanStoreA scanStateA).outRidWritten = some ⟨7, 2⟩ ∧
    (scanNext 4 scanStoreA scanStateA).result = .error .indexScanCompleted ∧
    (scanNext 4 scanStoreA scanStateA).events = [.unpin 2 false] ∧
    scanLeafA.keyArray 1 = 10 ∧
    satisfiesHigh .LTE 7 (scanLeafA.keyArray 1) = false ∧
    satisfiesLow .GTE 5 (scanLeafA.keyArray 1) = true :=
  ⟨rfl, rfl, rfl, rfl, rfl, rfl⟩

/-- C2: splitting the full leaf with keys 10, 20, 30, 40 by inserting key 5
(rid (9,9)) diverges from the claim.  The merged order is 5, 10, 20, 30, 40,
so the claim requires the original leaf to hold entries 5 and 10; the source
never copies the merged first half back into the original leaf, which keeps
its old entries 10 and 20.  The inserted pair (5, (9,9)) ends up in neither
leaf and the entry with key 20 (rid (2,0)) is duplicated into both.  The new
leaf, the sibling splice and the promoted key do match the claim. -/
theorem claim2_splitLeafNode_loses_first_half_insert :
    mergedKeyAt 4 splitLeafA 5 0 = 5 ∧
    mergedRidAt 4 splitLeafA 5 ⟨9, 9⟩ 0 = ⟨9, 9⟩ ∧
    mergedKeyAt 4 splitLeafA 5 1 = 10 ∧
    (splitLeafMerge 4 splitLeafA 5 ⟨9, 9⟩).1 0 = 5 ∧
    (splitLeafMerge 4 splitLeafA 5 ⟨9, 9⟩).1 1 = 10 ∧
    (splitLeafMerge 4 splitLeafA 5 ⟨9, 9⟩).1 2 = 20 ∧
    (splitLeafMerge 4 splitLeafA 5 ⟨9, 9⟩).1 3 = 30 ∧
    (splitLeafMerge 4 splitLeafA 5 ⟨9, 9⟩).1 4 = 40 ∧
    (splitLeafNode 4 splitLeafA 5 ⟨9, 9⟩ 30).oldNode.keyArray 0 = 10 ∧
    (splitLeafNode 4 splitLeafA 5 ⟨9, 9⟩ 30).oldNode.ridArray 0 = ⟨1, 0⟩ ∧
    (splitLeafNode 4 splitLeafA 5 ⟨9, 9⟩ 30).oldNode.keyArray 1 = 20 ∧
    (splitLeafNode 4 splitLeafA 5 ⟨9, 9⟩ 30).oldNode.ridArray 1 = ⟨2, 0⟩ ∧
    (splitLeafNode 4 splitLeafA 5 ⟨9, 9⟩ 30).oldNode.ridArray 2 = ⟨0, 0⟩ ∧
    (splitLeafNode 4 splitLeafA 5 ⟨9, 9⟩ 30).oldNode.ridArray 3 = ⟨0, 0⟩ ∧
    (splitLeafNode 4 splitLeafA 5 ⟨9, 9⟩ 30).newNode.keyArray 0 = 20 ∧
    (splitLeafNode 4 splitLeafA 5 ⟨9, 9⟩ 30).newNode.ridArray 0 = ⟨2, 0⟩ ∧
    (splitLeafNode 4 splitLeafA 5 ⟨9, 9⟩ 30).newNode.keyArray 1 = 30 ∧
    (splitLeafNode 4 splitLeafA 5 ⟨9, 9⟩ 30).newNode.keyArray 2 = 40 ∧
    (splitLeafNode 4 splitLeafA 5 ⟨9, 9⟩ 30).newNode.ridArray 3 = ⟨0, 0⟩ ∧
    (splitLeafNode 4 splitLeafA 5 ⟨9, 9⟩ 30).midKey = 20 ∧
    (splitLeafNode 4 splitLeafA 5 ⟨9, 9⟩ 30).oldNode.rightSibPageNo = 30 ∧
    (splitLeafNode 4 splitLeafA 5 ⟨9, 9⟩ 30).newNode.rightSibPageNo = 6 := by
  decide

/-- C3: splitting the full internal node (capacity 3, keys 10, 20, 30,
children 1, 2, 3, 4, pinned at page 7) by inserting key 40 with new child
page 9: the temporary key array is the correct merge, but the appended child
pointer slot receives 7 - the page number of the node being split - instead
of the new child's page 9 that the claim requires. -/
theorem claim3_splitNonLeaf_appends_own_pid :
    (splitNonLeafTemp 3 splitNonLeafA 40 9 7).1 0 = 10 ∧
    (splitNonLeafTemp 3 splitNonLeafA 40 9 7).1 1 = 20 ∧
    (splitNonLeafTemp 3 splitNonLeafA 40 9 7).1 2 = 30 ∧
    (splitNonLeafTemp 3 splitNonLeafA 40 9 7).1 3 = 40 ∧
    (splitNonLeafTemp 3 splitNonLeafA 40 9 7).2 0 = 1 ∧
    (splitNonLeafTemp 3 splitNonLeafA 40 9 7).2 1 = 2 ∧
    (splitNonLeafTemp 3 splitNonLeafA 40 9 7).2 2 = 3 ∧
    (splitNonLeafTemp 3 splitNonLeafA 40 9 7).2 3 = 4 ∧
    (splitNonLeafTemp 3 splitNonLeafA 40 9 7).2 4 = 7 ∧
    Nat.beq 7 9 = false := by
  decide

/-- C4: opening an existing index whose persisted metadata records
attrByteOffset 4 and attrType 0 with caller parameters attrByteOffset 8 and
attrType 1 completes without BadIndexInfo, and the in-memory metadata carries
the caller's values over the persisted ones; the source compares nothing. -/
theorem claim4_open_existing_never_checks_meta :
    btreeOpenExisting ⟨"rel", 4, 0, 2⟩ "rel" 8 1 = .ok (⟨"rel", 8, 1, 2⟩, 2) ∧
    (4 : Int) < 8 := by
  exact ⟨rfl, by decide⟩

/-- C5 counterexample: over the single leaf with keys 3 and 10,
startScan(5, GTE, 7, LTE) completes without raising (positioned on key 10),
yet key 3 fails the lower bound and key 10 fails the upper bound and slots
2 and 3 are empty, so no stored key satisfies both bounds; this refutes the
claim that completing without NoSuchKeyFound implies some stored key is in
range. -/
theorem claim5_counterexample :
    (startScan 3 4 scanStoreA 2 1 scanStateInit 5 7 .GTE .LTE).1 =
      .ok scanStateA ∧
    scanLeafA.keyArray 0 = 3 ∧
    satisfiesLow .GTE 5 (scanLeafA.keyArray 0) = false ∧
    scanLeafA.keyArray 1 = 10 ∧
    satisfiesHigh .LTE 7 (scanLeafA.keyArray 1) = false ∧
    (scanLeafA.ridArray 2).page_number = 0 ∧
    (scanLeafA.ridArray 3).page_number = 0 :=
  ⟨rfl, rfl, rfl, rfl, rfl, rfl, rfl⟩

/-- C6: endScan on an active scan whose leaf is pinned at page 2 succeeds and
performs no buffer-manager call at all - the event list is empty, so the
pinned leaf is never unpinned, contrary to the claim that endScan unpins the
current leaf before clearing the scan state. -/
theorem claim6_endScan_unpins_nothing :
    scanStateA.scanExecuting = true ∧
    scanStateA.currentPageNum = 2 ∧
    endScan scanStateA =
      (.ok { scanExecuting := false, nextEntry := -1, currentPageNum := 0,
             lowValInt := 5, highValInt := 7, lowOp := .GTE, highOp := .LTE },
       []) :=
  ⟨rfl, rfl, rfl⟩

/-- C7 counterexample: when the old root is an internal node whose level is 1
(the level the source itself gives the first promoted root), the source
assigns the new root level 0, not the old root's level 1 that the claim
states. -/
theorem claim7_counterexample :
    (insertEntryNewRoot 1 50 2 3).level = 0 ∧ (0 : Int) < 1 := by
  exact ⟨rfl, by decide⟩

/-- C8: destroying an index while the buffer manager's flushFile fails (as it
does with PagePinned when the active scan's leaf is still pinned) propagates
the error to the caller: the destructor body has no try/catch, contradicting
the claim (and the header comment) that teardown suppresses every error. -/
theorem claim8_destructor_propagates :
    btreeDestructor ⟨true, true, 1, 1, 2, 2⟩ (.error .pagePinned) =
      .error .pagePinned :=
  rfl

/-- C9 counterexample: on the full internal node (capacity M = 3) with a key
above every stored key, the findNonLeafIndex guard evaluates
pageNoArray[idx+1] at idx = 3, accessing index 4 > M; and on the full leaf
(capacity L = 4) the insertToLeaf detection loop's guard accesses
ridArray[next] at next = 4 = L.  Both violate the claimed bounds
idx+1 <= M and next < L. -/
theorem claim9_counterexample :
    4 ∈ findNonLeafIndexAccesses 3 splitNonLeafA 100 ∧
    Nat.ble 4 3 = false ∧
    4 ∈ (insertToLeafFullCheck 4 splitLeafA).2 ∧
    Nat.blt 4 4 = false := by
  decide

/-- Every pageNoArray index the findNonLeafIndex guard accesses is at most
M + 1: the running index never exceeds M because the guard requires idx < M
to continue. -/
theorem findNonLeafIndexGo_access_le (M : Nat) (node : NonLeafNodeInt)
    (key : Int) :
    ∀ fuel idx, idx ≤ M →
      ∀ a ∈ (findNonLeafIndexGo M node key fuel idx).2, a ≤ M + 1 := by
  intro fuel
  induction fuel with
  | zero => intro idx _ a ha; simp [findNonLeafIndexGo] at ha
  | succ f ih =>
      intro idx hidx a ha
      simp only [findNonLeafIndexGo] at ha
      split at ha
      · rcases List.mem_cons.mp ha with h | h
        · omega
        · exact ih (idx+1) (by omega) a h
      · simp at ha; omega

/-- The out-of-bounds access at index M + 1 happens exactly when the guard
passes at every index below M, i.e. when the node is full up to M and the key
exceeds every stored key on the way. -/
theorem findNonLeafIndexGo_top_mem (M : Nat) (node : NonLeafNodeInt)
    (key : Int) :
    ∀ fuel idx, idx ≤ M → M + 1 ≤ fuel + idx →
      ((M + 1) ∈ (findNonLeafIndexGo M node key fuel idx).2 ↔
        ∀ i, idx ≤ i → i < M →
          (node.pageNoArray (i+1) ≠ 0 ∧ key > node.keyArray i)) := by
  intro fuel
  induction fuel with
  | zero => intro idx h1 h2; omega
  | succ f ih =>
      intro idx h1 h2
      simp only [findNonLeafIndexGo]
      split
      case isTrue hcond =>
        have hlt : idx < M := hcond.2.2
        constructor
        · intro hmem i hi1 hi2
          rcases List.mem_cons.mp hmem with h | h
          · omega
          · rcases Nat.eq_or_lt_of_le hi1 with rfl | hlt2
            · exact ⟨hcond.1, hcond.2.1⟩
            · exact (ih (idx+1) (by omega) (by omega)).mp h i (by omega) hi2
        · intro hall
          exact List.mem_cons.mpr (Or.inr ((ih (idx+1) (by omega)
            (by omega)).mpr (fun i hi1 hi2 => hall i (by omega) hi2)))
      case isFalse hcond =>
        by_cases hM : idx = M
        · subst hM
          constructor
          · intro _ i hi1 hi2; omega
          · intro _; simp
        · have hltM : idx < M := by omega
          constructor
          · intro hmem
            exfalso
            have : M + 1 = idx + 1 := by simpa using hmem
            omega
          · intro hall
            exfalso
            exact hcond ⟨(hall idx le_rfl hltM).1, (hall idx le_rfl hltM).2,
              hltM⟩

/-- Every ridArray index the insertToLeaf full-detection guard accesses is at
most L. -/
theorem insertToLeafFullCheckGo_access_le (L : Nat) (node : LeafNodeInt) :
    ∀ fuel idx, idx ≤ L →
      ∀ a ∈ (insertToLeafFullCheckGo L node fuel idx).2, a ≤ L := by
  intro fuel
  induction fuel with
  | zero => intro idx _ a ha; simp [insertToLeafFullCheckGo] at ha
  | succ f ih =>
      intro idx hidx a ha
      simp only [insertToLeafFullCheckGo] at ha
      split at ha
      case isTrue hcond =>
        rcases List.mem_cons.mp ha with h | h
        · omega
        · exact ih (idx+1) hcond.2 a h
      case isFalse hcond =>
        simp at ha; omega

/-- The access at index L happens exactly when every slot below L is
occupied, i.e. on a full leaf. -/
theorem insertToLeafFullCheckGo_top_mem (L : Nat) (node : LeafNodeInt) :
    ∀ fuel idx, idx ≤ L → L + 1 ≤ fuel + idx →
      (L ∈ (insertToLeafFullCheckGo L node fuel idx).2 ↔
        ∀ i, idx ≤ i → i < L → (node.ridArray i).page_number ≠ 0) := by
  intro fuel
  induction fuel with
  | zero => intro idx h1 h2; omega
  | succ f ih =>
      intro idx h1 h2
      simp only [insertToLeafFullCheckGo]
      split
      case isTrue hcond =>
        have hlt : idx < L := hcond.2
        constructor
        · intro hmem i hi1 hi2
          rcases List.mem_cons.mp hmem with h | h
          · omega
          · rcases Nat.eq_or_lt_of_le hi1 with rfl | hlt2
            · exact hcond.1
            · exact (ih (idx+1) (by omega) (by omega)).mp h i (by omega) hi2
        · intro hall
          exact List.mem_cons.mpr (Or.inr ((ih (idx+1) (by omega)
            (by omega)).mpr (fun i hi1 hi2 => hall i (by omega) hi2)))
      case isFalse hcond =>
        by_cases hL : idx = L
        · subst hL
          constructor
          · intro _ i hi1 hi2; omega
          · intro _; simp
        · have hltL : idx < L := by omega
          constructor
          · intro hmem
            exfalso
            have : L = idx := by simpa using hmem
            omega
          · intro hall
            exfalso
            exact hcond ⟨hall idx le_rfl hltL, hltL⟩

/-- C9 (amended): every pageNoArray access of findNonLeafIndex has index at
most M + 1 (one slot past the last valid index M), and the access at M + 1
occurs exactly when the node is full and the key exceeds every stored key;
every ridArray access of insertToLeaf's full-detection loop has index at most
L (one slot past the last valid index L - 1), and the access at L occurs
exactly when the leaf is full.  All other accesses stay within the declared
bounds. -/
theorem claim9_amended :
    ∀ (M : Nat) (inode : NonLeafNodeInt) (ikey : Int) (L : Nat)
      (lnode : LeafNodeInt),
      (∀ a ∈ findNonLeafIndexAccesses M inode ikey, a ≤ M + 1) ∧
      ((M + 1) ∈ findNonLeafIndexAccesses M inode ikey ↔
        ∀ i, i < M → (inode.pageNoArray (i+1) ≠ 0 ∧ ikey > inode.keyArray i)) ∧
      (∀ a ∈ (insertToLeafFullCheck L lnode).2, a ≤ L) ∧
      (L ∈ (insertToLeafFullCheck L lnode).2 ↔
        ∀ i, i < L → (lnode.ridArray i).page_number ≠ 0) := by
  intro M inode ikey L lnode
  refine ⟨?_, ?_, ?_, ?_⟩
  · exact findNonLeafIndexGo_access_le M inode ikey (M+1) 0 (by omega)
  · have h := findNonLeafIndexGo_top_mem M inode ikey (M+1) 0 (by omega)
      (by omega)
    simpa using h
  · exact insertToLeafFullCheckGo_access_le L lnode (L+1) 0 (by omega)
  · have h := insertToLeafFullCheckGo_top_mem L lnode (L+1) 0 (by omega)
      (by omega)
    simpa using h

/-- Witness for C9 (amended) at the concrete fixtures: the out-of-bounds
accesses 4 = M+1 and 4 = L are reached and respect the amended bounds. -/
theorem claim9_amended_witness :
    4 ∈ findNonLeafIndexAccesses 3 splitNonLeafA 100 ∧
    4 ≤ 3 + 1 ∧
    4 ∈ (insertToLeafFullCheck 4 splitLeafA).2 ∧
    4 ≤ 4 := by
  refine ⟨?_, ?_, ?_, ?_⟩
  · exact (claim9_amended 3 splitNonLeafA 100 4 splitLeafA).2.1.mpr (by decide)
  · exact (claim9_amended 3 splitNonLeafA 100 4 splitLeafA).1 4
      ((claim9_amended 3 splitNonLeafA 100 4 splitLeafA).2.1.mpr (by decide))
  · exact (claim9_amended 3 splitNonLeafA 100 4 splitLeafA).2.2.2.mpr
      (by decide)
  · exact (claim9_amended 3 splitNonLeafA 100 4 splitLeafA).2.2.1 4
      ((claim9_amended 3 splitNonLeafA 100 4 splitLeafA).2.2.2.mpr (by decide))

/-- Every buffer call of recursiveScanPageId is a read or an unpin with
dirty = false. -/
theorem recursiveScanPageId_clean (M : Nat) (store : Store) (lowValInt : Int) :
    ∀ fuel pid, ∀ e ∈ (recursiveScanPageId M store lowValInt fuel pid).2,
      cleanEvent e = true := by
  intro fuel
  induction fuel with
  | zero => intro pid e he; simp [recursiveScanPageId] at he
  | succ f ih =>
      intro pid e he
      simp only [recursiveScanPageId] at he
      split at he
      · simp at he
        rcases he with rfl | rfl <;> rfl
      · simp only [List.mem_cons] at he
        rcases he with rfl | rfl | h
        · rfl
        · rfl
        · exact ih _ e h

/-- Every buffer call of the positioning tail of startScan is a read or an
unpin with dirty = false. -/
theorem startScanLocate_clean (M L : Nat) (store : Store) (root fuel : Nat)
    (stBase : ScanState) :
    ∀ e ∈ (startScanLocate M L store root fuel stBase).2,
      cleanEvent e = true := by
  intro e he
  have hrec := recursiveScanPageId_clean M store stBase.lowValInt fuel root
  unfold startScanLocate at he
  rcases hopt : (recursiveScanPageId M store stBase.lowValInt fuel root).1 with
    _ | leafPid
  · simp only [hopt] at he
    exact hrec e he
  · simp only [hopt] at he
    rcases hfind : startScanFindGo (asLeaf (store leafPid)) stBase.lowValInt
        stBase.highValInt stBase.lowOp stBase.highOp L 0 with i | _ | _
    · simp only [hfind] at he
      rcases List.mem_append.mp he with h | h
      · exact hrec e h
      · simp at h; subst h; rfl
    · simp only [hfind] at he
      rcases List.mem_append.mp he with h | h
      · exact hrec e h
      · simp at h
        rcases h with rfl | rfl <;> rfl
    · simp only [hfind] at he
      split at he
      · rcases List.mem_append.mp he with h | h
        · exact hrec e h
        · simp at h
          rcases h with rfl | rfl <;> rfl
      · rcases List.mem_append.mp he with h | h
        · exact hrec e h
        · simp at h
          rcases h with rfl | rfl | rfl <;> rfl

/-- Every buffer call of scanNext is a read or an unpin with dirty = false. -/
theorem scanNext_clean (L : Nat) (store : Store) (st : ScanState) :
    ∀ e ∈ (scanNext L store st).events, cleanEvent e = true := by
  intro e he
  simp only [scanNext] at he
  split at he
  · simp at he
  · split at he
    · simp at he; subst he; rfl
    · split at he
      · split at he
        · simp at he; subst he; rfl
        · simp at he
          rcases he with rfl | rfl <;> rfl
      · simp at he

/-- endScan makes no buffer call at all. -/
theorem endScan_clean (st : ScanState) :
    ∀ e ∈ (endScan st).2, cleanEvent e = true := by
  intro e he
  unfold endScan at he
  split at he <;> simp at he

/-- C10: the scan path never modifies the index.  recursiveScanPageId,
startScan, scanNext and endScan take the store read-only in this embedding
(their source contains no page-field assignment), and every buffer-manager
call any of them issues, on every input and outcome, is a read or an unpin
with dirty = false - so the stored tree is unchanged by any sequence of scan
operations. -/
theorem claim10_scans_are_read_only :
    ∀ (M L : Nat) (store : Store) (lowValInt : Int) (fuel pid root : Nat)
      (st : ScanState) (lowVal highVal : Int) (lowOp highOp : Operator)
      (e : BufEvent),
      (e ∈ (recursiveScanPageId M store lowValInt fuel pid).2 →
        cleanEvent e = true) ∧
      (e ∈ (startScan M L store root fuel st lowVal highVal lowOp highOp).2 →
        cleanEvent e = true) ∧
      (e ∈ (scanNext L store st).events → cleanEvent e = true) ∧
      (e ∈ (endScan st).2 → cleanEvent e = true) := by
  intro M L store lowValInt fuel pid root st lowVal highVal lowOp highOp e
  refine ⟨fun h => recursiveScanPageId_clean M store lowValInt fuel pid e h,
    fun h => ?_, fun h => scanNext_clean L store st e h,
    fun h => endScan_clean st e h⟩
  unfold startScan at h
  split at h
  · simp at h
  · split at h
    · simp at h
    · split at h
      · simp at h
      · exact startScanLocate_clean M L store root fuel _ e h

/-- Witness for C10 at a concrete run: the descent over the single-leaf store
issues the unpin of page 2 with dirty = false, and that event is clean. -/
theorem claim10_witness :
    BufEvent.unpin 2 false ∈ (recursiveScanPageId 3 scanStoreB 5 1 2).2 ∧
    cleanEvent (BufEvent.unpin 2 false) = true := by
  refine ⟨by decide, ?_⟩
  exact (claim10_scans_are_read_only 3 4 scanStoreB 5 1 2 2 scanStateInit 5 7
    .GTE .LTE (BufEvent.unpin 2 false)).1 (by decide)

/-- C7 (amended): the fresh root built on a root split has level 1 when the
old root was a leaf (level -1) and level 0 otherwise - not the old root's
level, which the source ignores on the internal branch; its first key is the
promoted key, its children are the old root and the new sibling, and
updateRootPageNo stores the new root page number in the metadata page. -/
theorem claim7_amended :
    ∀ (rootLevel midKey : Int) (pid newPid : Nat) (meta : IndexMetaInfo)
      (newRootPid : Nat),
      (insertEntryNewRoot rootLevel midKey pid newPid).level =
        (if rootLevel = -1 then 1 else 0) ∧
      (insertEntryNewRoot rootLevel midKey pid newPid).keyArray 0 = midKey ∧
      (insertEntryNewRoot rootLevel midKey pid newPid).pageNoArray 0 = pid ∧
      (insertEntryNewRoot rootLevel midKey pid newPid).pageNoArray 1 = newPid ∧
      (updateRootPageNo meta newRootPid).rootPageNo = newRootPid := by
  intro rootLevel midKey pid newPid meta newRootPid
  unfold insertEntryNewRoot updateRootPageNo
  split <;> simp [updFun]

/-- A key fails the lower bound when both found-branch conditions of the
positioning loop are false. -/
theorem satisfiesLowFalse (lowOp : Operator) (low k : Int)
    (hop : lowOp = .GT ∨ lowOp = .GTE)
    (h1 : ¬(lowOp = .GT ∧ k > low)) (h2 : ¬(lowOp = .GTE ∧ k ≥ low)) :
    satisfiesLow lowOp low k = false := by
  rcases hop with rfl | rfl
  · simp only [satisfiesLow, decide_eq_false_iff_not]
    intro hlt
    exact h1 ⟨rfl, hlt⟩
  · simp only [satisfiesLow, decide_eq_false_iff_not]
    intro hle
    exact h2 ⟨rfl, hle⟩

/-- When the positioning loop raises NoSuchKeyFound it did so at some slot
whose key fails the lower bound and lies on or above the upper bound. -/
theorem startScanFindGo_noSuchKey (leaf : LeafNodeInt)
    (lowValInt highValInt : Int) (lowOp highOp : Operator)
    (hop : lowOp = .GT ∨ lowOp = .GTE) :
    ∀ fuel i,
      startScanFindGo leaf lowValInt highValInt lowOp highOp fuel i =
        .noSuchKey →
      ∃ t, satisfiesLow lowOp lowValInt (leaf.keyArray t) = false ∧
        ((highOp = .LT ∧ leaf.keyArray t > highValInt) ∨
         (highOp = .LTE ∧ leaf.keyArray t ≥ highValInt)) := by
  intro fuel
  induction fuel with
  | zero => intro i h; simp [startScanFindGo] at h
  | succ f ih =>
      intro i h
      simp only [startScanFindGo] at h
      split at h
      · simp at h
      · split at h
        · simp at h
        case isFalse h1 =>
          split at h
          · simp at h
          case isFalse h2 =>
            split at h
            case isTrue hc3 =>
              exact ⟨i, satisfiesLowFalse lowOp lowValInt (leaf.keyArray i)
                hop h1 h2, Or.inl hc3⟩
            case isFalse hc3 =>
              split at h
              case isTrue hc4 =>
                exact ⟨i, satisfiesLowFalse lowOp lowValInt (leaf.keyArray i)
                  hop h1 h2, Or.inr hc4⟩
              case isFalse hc4 => exact ih (i+1) h

/-- When the positioning loop runs off the leaf without finding a slot, every
occupied slot it can have examined either lies past an empty slot or fails
the lower bound. -/
theorem startScanFindGo_notFound (leaf : LeafNodeInt)
    (lowValInt highValInt : Int) (lowOp highOp : Operator)
    (hop : lowOp = .GT ∨ lowOp = .GTE) :
    ∀ fuel i,
      startScanFindGo leaf lowValInt highValInt lowOp highOp fuel i =
        .notFound →
      ∀ s, i ≤ s → s < i + fuel → (leaf.ridArray s).page_number ≠ 0 →
        ((∃ t, i ≤ t ∧ t ≤ s ∧ (leaf.ridArray t).page_number = 0) ∨
         satisfiesLow lowOp lowValInt (leaf.keyArray s) = false) := by
  intro fuel
  induction fuel with
  | zero => intro i _ s h1 h2; omega
  | succ f ih =>
      intro i h s hs1 hs2 hocc
      simp only [startScanFindGo] at h
      split at h
      case isTrue hempty => exact Or.inl ⟨i, le_rfl, hs1, hempty⟩
      case isFalse hne =>
        split at h
        · simp at h
        case isFalse h1 =>
          split at h
          · simp at h
          case isFalse h2 =>
            split at h
            · simp at h
            case isFalse hc3 =>
              split at h
              · simp at h
              case isFalse hc4 =>
                rcases Nat.eq_or_lt_of_le hs1 with heq | hlt
                · rw [← heq]
                  exact Or.inr (satisfiesLowFalse lowOp lowValInt
                    (leaf.keyArray i) hop h1 h2)
                · rcases ih (i+1) h s (by omega) (by omega) hocc with
                    ⟨t, ht1, ht2, ht3⟩ | hf
                  · exact Or.inl ⟨t, by omega, ht2, ht3⟩
                  · exact Or.inr hf

/-- Core of C5 (amended): when the positioning tail of startScan raises
NoSuchKeyFound, no stored key satisfies both bounds - under the invariants
that the reached page is a left-compacted leaf and that, when that leaf is
the rightmost one, keys on other leaves all fail the lower bound (descent
reaches the leaf where the lower bound would be stored). -/
theorem startScanLocate_noSuchKey (M L : Nat) (store : Store)
    (root fuel : Nat) (stBase : ScanState) (leafPid : Nat)
    (leaf : LeafNodeInt)
    (hop : stBase.lowOp = .GT ∨ stBase.lowOp = .GTE)
    (_hrange : stBase.lowValInt ≤ stBase.highValInt)
    (hres : (startScanLocate M L store root fuel stBase).1 =
      .error .noSuchKeyFound)
    (hdesc : (recursiveScanPageId M store stBase.lowValInt fuel root).1 =
      some leafPid)
    (hstore : store leafPid = BTPage.leaf leaf)
    (hcompact : leftCompacted L leaf)
    (hothers : leaf.rightSibPageNo = 0 →
      ∀ pid other, pid ≠ leafPid → store pid = BTPage.leaf other →
        ∀ i, i < L → (other.ridArray i).page_number ≠ 0 →
          satisfiesLow stBase.lowOp stBase.lowValInt (other.keyArray i) =
            false) :
    ∀ pid node, store pid = BTPage.leaf node → ∀ i, i < L →
      (node.ridArray i).page_number ≠ 0 →
      ¬(satisfiesLow stBase.lowOp stBase.lowValInt (node.keyArray i) = true ∧
        satisfiesHigh stBase.highOp stBase.highValInt (node.keyArray i) =
          true) := by
  unfold startScanLocate at hres
  simp only [hdesc] at hres
  have hleaf : asLeaf (store leafPid) = leaf := by rw [hstore]; rfl
  rw [hleaf] at hres
  rcases hfind : startScanFindGo leaf stBase.lowValInt stBase.highValInt
      stBase.lowOp stBase.highOp L 0 with i | _ | _
  · simp only [hfind] at hres
    simp at hres
  · obtain ⟨t, hlowf, hd⟩ := startScanFindGo_noSuchKey leaf stBase.lowValInt
      stBase.highValInt stBase.lowOp stBase.highOp hop L 0 hfind
    intro pid node _ i _ _ hand
    obtain ⟨hL, hH⟩ := hand
    rcases hd with ⟨hHL, hb⟩ | ⟨hHL, hb⟩ <;>
      rcases hop with hlo | hlo <;>
      rw [hHL] at hH <;> rw [hlo] at hlowf hL <;>
      simp only [satisfiesLow, satisfiesHigh, decide_eq_true_eq,
        decide_eq_false_iff_not] at hlowf hL hH <;>
      omega
  · simp only [hfind] at hres
    split at hres
    case isTrue hsib =>
      intro pid node hpn i hi hocc hand
      obtain ⟨hL, hH⟩ := hand
      by_cases hpid : pid = leafPid
      · subst hpid
        rw [hstore] at hpn
        injection hpn with hnode
        subst hnode
        rcases startScanFindGo_notFound leaf stBase.lowValInt
            stBase.highValInt stBase.lowOp stBase.highOp hop L 0 hfind i
            (by omega) (by omega) hocc with ⟨t, _, ht2, ht3⟩ | hf
        · exact hocc (hcompact i hi t ht2 ht3)
        · rw [hf] at hL
          exact absurd hL (by decide)
      · have hf2 := hothers hsib pid node hpid hpn i hi hocc
        rw [hf2] at hL
        exact absurd hL (by decide)
    case isFalse => simp at hres

/-- C5 (amended): startScan raises NoSuchKeyFound only when no stored key
satisfies both bounds (under the descent and leaf invariants above); the
converse direction of the claim is false - startScan can complete without
raising although no stored key is in range (see the counterexample). -/
theorem claim5_amended :
    ∀ (M L : Nat) (store : Store) (root fuel : Nat) (st : ScanState)
      (lowVal highVal : Int) (lowOp highOp : Operator) (leafPid : Nat)
      (leaf : LeafNodeInt),
      (startScan M L store root fuel st lowVal highVal lowOp highOp).1 =
        .error .noSuchKeyFound →
      (recursiveScanPageId M store lowVal fuel root).1 = some leafPid →
      store leafPid = BTPage.leaf leaf →
      leftCompacted L leaf →
      (leaf.rightSibPageNo = 0 →
        ∀ pid other, pid ≠ leafPid → store pid = BTPage.leaf other →
          ∀ i, i < L → (other.ridArray i).page_number ≠ 0 →
            satisfiesLow lowOp lowVal (other.keyArray i) = false) →
      ∀ pid node, store pid = BTPage.leaf node → ∀ i, i < L →
        (node.ridArray i).page_number ≠ 0 →
        ¬(satisfiesLow lowOp lowVal (node.keyArray i) = true ∧
          satisfiesHigh highOp highVal (node.keyArray i) = true) := by
  intro M L store root fuel st lowVal highVal lowOp highOp leafPid leaf
    hres hdesc hstore hcompact hothers
  unfold startScan at hres
  split at hres
  · simp at hres
  case isFalse hc1 =>
    split at hres
    · simp at hres
    case isFalse hc2 =>
      split at hres
      · simp at hres
      case isFalse hc3 =>
        have hop : lowOp = .GT ∨ lowOp = .GTE := by
          cases lowOp with
          | GT => exact Or.inl rfl
          | GTE => exact Or.inr rfl
          | LT => exact absurd ⟨by decide, by decide⟩ hc1
          | LTE => exact absurd ⟨by decide, by decide⟩ hc1
        have hrange : lowVal ≤ highVal := by omega
        by_cases hexec : st.scanExecuting = true
        · rw [if_pos hexec] at hres
          exact startScanLocate_noSuchKey M L store root fuel _ leafPid leaf
            hop hrange hres hdesc hstore hcompact hothers
        · rw [if_neg hexec] at hres
          exact startScanLocate_noSuchKey M L store root fuel _ leafPid leaf
            hop hrange hres hdesc hstore hcompact hothers

/-- Witness for C5 (amended): over the single leaf holding only key 3,
startScan(5, GTE, 7, LTE) raises NoSuchKeyFound and indeed the stored key 3
is not in range. -/
theorem claim5_amended_witness :
    (startScan 3 4 scanStoreB 2 1 scanStateInit 5 7 .GTE .LTE).1 =
      .error .noSuchKeyFound ∧
    ¬(satisfiesLow .GTE 5 (scanLeafB.keyArray 0) = true ∧
      satisfiesHigh .LTE 7 (scanLeafB.keyArray 0) = true) := by
  refine ⟨rfl, ?_⟩
  refine claim5_amended 3 4 scanStoreB 2 1 scanStateInit 5 7 .GTE .LTE 2
    scanLeafB rfl rfl rfl ?_ ?_ 2 scanLeafB rfl 0 (by omega) (by decide)
  · intro s hs t hts h0
    interval_cases s <;> interval_cases t <;> simp_all [scanLeafB]
  · intro _ pid other _ hpe i hi hocc
    have hoe : scanLeafB = other := by
      injection hpe
    subst hoe
    interval_cases i <;> simp_all [scanLeafB, satisfiesLow]

end Btree
